import Mathlib

/-!
Verification of the `minecraft-xp` module (`src/minecraft-xp.js`).

The JavaScript functions are shallowly embedded in Lean:
* levels and experience values are `Int` (all the arithmetic the module
  performs on them is exact integer arithmetic in JavaScript's doubles for
  the ranges of interest, and the `/ 2` divisions in `totalXPForLevel`
  always have an even numerator, so integer division is exact);
* quantities on which JavaScript performs genuine float division
  (`progressRatio`, the ratio inside `renderProgressBar`, the `percent`
  argument of `xpAtPercent`) are `ℚ`;
* `Math.round x` is `⌊x + 1/2⌋` (JavaScript rounds ties toward +∞);
* fallible operations (`throw`) are `Except String _`, and an exception
  thrown inside a callee propagates: a computation that throws produces
  `Except.error` and nothing after it runs.  In `renderProgressBar` the
  only error source is `String.prototype.repeat` with a negative count
  (a `RangeError`); the `total = 0` branch, where JavaScript produces
  `NaN` (`0/0`) or `±Infinity`, is translated explicitly:
  `"#".repeat(NaN)` is `""` (the count converts to `0`), so `current = 0`
  yields `"[]"`; `current > 0` gives ratio `+Infinity`,
  `min(+Infinity, 1) = 1`, hence a fully filled bar; `current < 0` gives
  `min(-Infinity, 1) = -Infinity`, and then `-Infinity * barWidth` is
  `-Infinity` for positive width (so `repeat(-Infinity)` throws) but
  `-Infinity * 0 = NaN` for width 0 (so both repeats get count `NaN` → 0
  and the result is `"[]"` with no error).
-/

/-- `xpForNextLevel(level)` from `src/minecraft-xp.js`: XP required to
advance from `level` to `level + 1`, a piecewise linear formula. -/
def xpForNextLevel (level : Int) : Int :=
  if 0 ≤ level ∧ level < 16 then 2 * level + 7
  else if 16 ≤ level ∧ level < 31 then 5 * level - 38
  else 9 * level - 158

/-- `totalXPForLevel(level)` from `src/minecraft-xp.js`: cumulative XP
required to reach `level`, piecewise closed forms. -/
def totalXPForLevel (level : Int) : Int :=
  if level ≤ 0 then 0
  else if level ≤ 16 then level * level + 6 * level
  else if level ≤ 31 then (5 * level * level - 81 * level + 720) / 2
  else (9 * level * level - 325 * level + 4440) / 2

/-- Every non-negative level is at most its own cumulative threshold.
(Used for the termination measure of the `getLevelFromXP` while loop.) -/
theorem le_totalXPForLevel (L : Int) (hL : 0 ≤ L) : L ≤ totalXPForLevel L := by
  unfold totalXPForLevel
  split_ifs with h0 h16 h31
  · omega
  · nlinarith
  · rw [Int.le_ediv_iff_mul_le (by norm_num : (0:Int) < 2)]
    nlinarith [sq_nonneg (L - 9)]
  · rw [Int.le_ediv_iff_mul_le (by norm_num : (0:Int) < 2)]
    nlinarith [sq_nonneg (L - 19)]

/-- The body of the `while` loop of `getLevelFromXP(totalXP)`: starting
from `level`, increment while `totalXPForLevel(level + 1) <= totalXP`. -/
def getLevelFromXPAux (totalXP : Int) (level : Nat) : Nat :=
  if totalXPForLevel ((level : Int) + 1) ≤ totalXP then
    getLevelFromXPAux totalXP (level + 1)
  else level
termination_by totalXP.toNat + 1 - level
decreasing_by
  have h1 : ((level : Int) + 1) ≤ totalXPForLevel ((level : Int) + 1) :=
    le_totalXPForLevel _ (by positivity)
  omega

/-- `getLevelFromXP(totalXP)` from `src/minecraft-xp.js`: the while loop
started at `level = 0`. -/
def getLevelFromXP (totalXP : Int) : Nat :=
  getLevelFromXPAux totalXP 0

/-- The same while loop with an explicit fuel bound, returning `none` when
the fuel runs out: used to state that the source loop terminates. -/
def getLevelLoop (fuel : Nat) (totalXP : Int) (level : Nat) : Option Nat :=
  match fuel with
  | 0 => none
  | fuel + 1 =>
    if totalXPForLevel ((level : Int) + 1) ≤ totalXP then
      getLevelLoop fuel totalXP (level + 1)
    else some level

/-- `Math.round` of JavaScript: round to the nearest integer, ties toward
positive infinity (`Math.round x = ⌊x + 1/2⌋`). -/
def mathRound (x : ℚ) : Int := ⌊x + 1 / 2⌋

/-- `s.repeat(n)` of JavaScript for an integer count `n`: throws a
`RangeError` when `n < 0`. -/
def jsRepeat (c : Char) (n : Int) : Except String (List Char) :=
  if n < 0 then Except.error "RangeError: Invalid count value"
  else Except.ok (List.replicate n.toNat c)

/-- `renderProgressBar(current, total, barWidth)` from `src/minecraft-xp.js`
(`barWidth` defaults to 20 at the call sites).  The `total = 0` branch makes
the JavaScript float semantics (`NaN`, `±Infinity`) explicit, as described
in the header comment; for `total ≠ 0` the arithmetic is the source's, over
`ℚ`. -/
def renderProgressBar (current total : ℚ) (barWidth : Nat) : Except String String :=
  if total = 0 then
    if 0 < current then
      Except.ok (String.mk ('[' :: (List.replicate barWidth '#' ++ [']'])))
    else if current = 0 then Except.ok "[]"
    else if barWidth = 0 then Except.ok "[]"
    else Except.error "RangeError: Invalid count value"
  else
    let progressRatio : ℚ := min (current / total) 1
    let filledLength : Int := mathRound (progressRatio * barWidth)
    let emptyLength : Int := barWidth - filledLength
    match jsRepeat '#' filledLength, jsRepeat '-' emptyLength with
    | Except.ok hashes, Except.ok dashes =>
        Except.ok (String.mk ('[' :: (hashes ++ dashes ++ [']'])))
    | Except.error e, _ => Except.error e
    | _, Except.error e => Except.error e

/-- Number of filled-marker characters in a rendered bar. -/
def countFilled (s : String) : Nat := s.data.count '#'

/-- The object returned by `getXPStatus` in `src/minecraft-xp.js`. -/
structure XPStatus where
  totalXP : Int
  level : Nat
  xpAtCurrentLevelStart : Int
  xpInLevel : Int
  xpForLevelUp : Int
  xpNeeded : Int
  progressRatio : ℚ
  progressBar : String
deriving Repr

/-- `getXPStatus(totalXP, barWidth)` from `src/minecraft-xp.js`
(`barWidth` defaults to 20 at the call sites).  A `RangeError` thrown by
`renderProgressBar` propagates to the caller. -/
def getXPStatus (totalXP : Int) (barWidth : Nat) : Except String XPStatus :=
  let level := getLevelFromXP totalXP
  let xpAtCurrentLevelStart := totalXPForLevel (level : Int)
  let xpInLevel := totalXP - xpAtCurrentLevelStart
  let xpForLevelUp := xpForNextLevel (level : Int)
  let xpNeeded := xpForLevelUp - xpInLevel
  let progressRatio : ℚ := (xpInLevel : ℚ) / (xpForLevelUp : ℚ)
  Except.map
    (fun progressBar => ⟨totalXP, level, xpAtCurrentLevelStart, xpInLevel,
      xpForLevelUp, xpNeeded, progressRatio, progressBar⟩)
    (renderProgressBar (xpInLevel : ℚ) (xpForLevelUp : ℚ) barWidth)

/-- `xpBetweenLevels(startLevel, endLevel)` from `src/minecraft-xp.js`:
throws when `startLevel > endLevel`, otherwise the threshold difference. -/
def xpBetweenLevels (startLevel endLevel : Int) : Except String Int :=
  if startLevel > endLevel then
    Except.error "startLevel cannot be greater than endLevel"
  else Except.ok (totalXPForLevel endLevel - totalXPForLevel startLevel)

/-- `xpAtPercent(level, percent)` from `src/minecraft-xp.js`:
`Math.round(percent * xpForNextLevel(level))`. -/
def xpAtPercent (level : Int) (percent : ℚ) : Int :=
  mathRound (percent * (xpForNextLevel level : ℚ))

/-- The loop of `simulateXPGain(initialXP, gains)`: add each gain to the
running total and push `getXPStatus` of the new total.  A `RangeError`
thrown by `getXPStatus` at any step propagates: the whole simulation
aborts with that error and returns nothing. -/
def simulateXPGainAux : Int → List Int → Except String (Int × List XPStatus)
  | xp, [] => Except.ok (xp, [])
  | xp, g :: rest =>
      Except.bind (getXPStatus (xp + g) 20) (fun st =>
        Except.bind (simulateXPGainAux (xp + g) rest) (fun r =>
          Except.ok (r.1, st :: r.2)))

/-- `simulateXPGain(initialXP, gains)` from `src/minecraft-xp.js`:
`{finalXP, steps}` as a pair on success, the propagated exception
otherwise. -/
def simulateXPGain (initialXP : Int) (gains : List Int) :
    Except String (Int × List XPStatus) :=
  simulateXPGainAux initialXP gains

/-- Modelled from the spec (§4.4): the "round half away from zero" rule the
specification prescribes for rounding, used to compare `xpAtPercent`
against the claimed rounding rule. -/
def roundHalfAwayFromZero (x : ℚ) : Int :=
  if 0 ≤ x then ⌊x + 1 / 2⌋ else ⌈x - 1 / 2⌉

/-! Evaluation lemmas for the piecewise formulas. -/

theorem totalXPForLevel_of_nonpos (L : Int) (h : L ≤ 0) : totalXPForLevel L = 0 := by
  unfold totalXPForLevel
  rw [if_pos h]

theorem totalXPForLevel_eq1 (L : Int) (h1 : 0 < L) (h2 : L ≤ 16) :
    totalXPForLevel L = L * L + 6 * L := by
  unfold totalXPForLevel
  split_ifs <;> first | rfl | (exfalso; omega)

theorem totalXPForLevel_eq2 (L : Int) (h1 : 16 < L) (h2 : L ≤ 31) :
    totalXPForLevel L = (5 * L * L - 81 * L + 720) / 2 := by
  unfold totalXPForLevel
  split_ifs <;> first | rfl | (exfalso; omega)

theorem totalXPForLevel_eq3 (L : Int) (h1 : 31 < L) :
    totalXPForLevel L = (9 * L * L - 325 * L + 4440) / 2 := by
  unfold totalXPForLevel
  split_ifs <;> first | rfl | (exfalso; omega)

theorem xpForNextLevel_eq1 (L : Int) (h1 : 0 ≤ L) (h2 : L < 16) :
    xpForNextLevel L = 2 * L + 7 := by
  unfold xpForNextLevel
  split_ifs with ha hb
  · rfl
  · exact absurd ⟨h1, h2⟩ ha
  · exact absurd ⟨h1, h2⟩ ha

theorem xpForNextLevel_eq2 (L : Int) (h1 : 16 ≤ L) (h2 : L < 31) :
    xpForNextLevel L = 5 * L - 38 := by
  unfold xpForNextLevel
  split_ifs with ha hb
  · exfalso; omega
  · rfl
  · exact absurd ⟨h1, h2⟩ hb

theorem xpForNextLevel_eq3 (L : Int) (h1 : 31 ≤ L) :
    xpForNextLevel L = 9 * L - 158 := by
  unfold xpForNextLevel
  split_ifs with ha hb
  · exfalso; omega
  · exfalso; omega
  · rfl

/-- `L * L` has the parity of `L`. -/
theorem mul_self_emod_two (L : Int) : L * L % 2 = L % 2 := by
  rw [Int.mul_emod]
  rcases Int.emod_two_eq L with h | h <;> rw [h] <;> decide

theorem quad2_numerator_even (L : Int) : (5 * L * L - 81 * L + 720) % 2 = 0 := by
  have h : 5 * L * L - 81 * L + 720 = (L * L - L) + 2 * (2 * L * L - 40 * L + 360) := by
    ring
  rw [h, Int.add_mul_emod_self_left, Int.sub_emod, mul_self_emod_two]
  simp

theorem quad3_numerator_even (L : Int) : (9 * L * L - 325 * L + 4440) % 2 = 0 := by
  have h : 9 * L * L - 325 * L + 4440 = (L * L - L) + 2 * (4 * L * L - 162 * L + 2220) := by
    ring
  rw [h, Int.add_mul_emod_self_left, Int.sub_emod, mul_self_emod_two]
  simp

/-- Consistency of the two piecewise formulas: the cumulative threshold
increases by exactly the level-up cost, at every non-negative level
(including the boundaries `L = 16` and `L = 31`). -/
theorem totalXPForLevel_succ_sub (L : Int) (hL : 0 ≤ L) :
    totalXPForLevel (L + 1) - totalXPForLevel L = xpForNextLevel L := by
  by_cases hc1 : L = 0
  · subst hc1; decide
  by_cases hc2 : L ≤ 15
  · rw [totalXPForLevel_eq1 (L + 1) (by omega) (by omega),
      totalXPForLevel_eq1 L (by omega) (by omega),
      xpForNextLevel_eq1 L (by omega) (by omega)]
    ring
  by_cases hc3 : L = 16
  · subst hc3; decide
  by_cases hc4 : L ≤ 30
  · rw [totalXPForLevel_eq2 (L + 1) (by omega) (by omega),
      totalXPForLevel_eq2 L (by omega) (by omega),
      xpForNextLevel_eq2 L (by omega) (by omega)]
    have he1 : 5 * (L + 1) * (L + 1) - 81 * (L + 1) + 720 =
        (5 * L * L - 81 * L + 720) + 2 * (5 * L - 38) := by ring
    have he2 := quad2_numerator_even L
    rw [he1]
    omega
  by_cases hc5 : L = 31
  · subst hc5; decide
  · rw [totalXPForLevel_eq3 (L + 1) (by omega),
      totalXPForLevel_eq3 L (by omega),
      xpForNextLevel_eq3 L (by omega)]
    have he1 : 9 * (L + 1) * (L + 1) - 325 * (L + 1) + 4440 =
        (9 * L * L - 325 * L + 4440) + 2 * (9 * L - 158) := by ring
    have he2 := quad3_numerator_even L
    rw [he1]
    omega

/-- The level-up cost is strictly positive at every non-negative level. -/
theorem xpForNextLevel_pos (L : Int) (hL : 0 ≤ L) : 0 < xpForNextLevel L := by
  unfold xpForNextLevel
  split_ifs <;> omega

/-- The cumulative threshold is strictly increasing at non-negative levels. -/
theorem totalXPForLevel_lt_succ (L : Int) (hL : 0 ≤ L) :
    totalXPForLevel L < totalXPForLevel (L + 1) := by
  have h1 := totalXPForLevel_succ_sub L hL
  have h2 := xpForNextLevel_pos L hL
  omega

/-- Monotonicity of the cumulative threshold on non-negative levels. -/
theorem totalXPForLevel_mono (a b : Int) (ha : 0 ≤ a) (hab : a ≤ b) :
    totalXPForLevel a ≤ totalXPForLevel b := by
  have key : ∀ k : Nat, totalXPForLevel a ≤ totalXPForLevel (a + k) := by
    intro k
    induction k with
    | zero => simp
    | succ k ih =>
        have h1 := totalXPForLevel_lt_succ (a + k) (by positivity)
        have h2 : ((k + 1 : Nat) : Int) = (k : Int) + 1 := by push_cast; ring
        rw [h2, ← add_assoc]
        omega
  obtain ⟨k, hk⟩ : ∃ k : Nat, b = a + k := ⟨(b - a).toNat, by omega⟩
  rw [hk]
  exact key k

/-! Characterization of the `getLevelFromXP` while loop. -/

theorem getLevelFromXPAux_eq (x : Int) (level : Nat) :
    getLevelFromXPAux x level =
      if totalXPForLevel ((level : Int) + 1) ≤ x then getLevelFromXPAux x (level + 1)
      else level := by
  rw [getLevelFromXPAux]

/-- Loop invariants of `getLevelFromXP`: the loop only moves up, exits at
the first level whose successor threshold exceeds `x`, and any level above
the starting one that it returns has its threshold below `x`. -/
theorem getLevelFromXPAux_spec (n : Nat) : ∀ (x : Int) (level : Nat),
    x.toNat + 1 - level ≤ n →
    level ≤ getLevelFromXPAux x level ∧
    x < totalXPForLevel ((getLevelFromXPAux x level : Int) + 1) ∧
    (getLevelFromXPAux x level = level ∨
      totalXPForLevel (getLevelFromXPAux x level : Int) ≤ x) := by
  induction n with
  | zero =>
      intro x level hn
      have hguard : ¬ totalXPForLevel ((level : Int) + 1) ≤ x := by
        intro h
        have h2 : ((level : Int) + 1) ≤ totalXPForLevel ((level : Int) + 1) :=
          le_totalXPForLevel _ (by positivity)
        omega
      rw [getLevelFromXPAux_eq, if_neg hguard]
      exact ⟨le_refl _, not_le.mp hguard, Or.inl rfl⟩
  | succ n ih =>
      intro x level hn
      rw [getLevelFromXPAux_eq]
      by_cases hguard : totalXPForLevel ((level : Int) + 1) ≤ x
      · rw [if_pos hguard]
        have hlev : ((level : Int) + 1) ≤ x :=
          le_trans (le_totalXPForLevel _ (by positivity)) hguard
        obtain ⟨h1, h2, h3⟩ := ih x (level + 1) (by omega)
        refine ⟨by omega, h2, ?_⟩
        rcases h3 with h3 | h3
        · right
          rw [h3]
          push_cast
          exact hguard
        · right
          exact h3
      · rw [if_neg hguard]
        exact ⟨le_refl _, not_le.mp hguard, Or.inl rfl⟩

/-- The returned level's successor threshold is strictly above the input. -/
theorem getLevelFromXP_lt (x : Int) :
    x < totalXPForLevel ((getLevelFromXP x : Int) + 1) :=
  (getLevelFromXPAux_spec (x.toNat + 1) x 0 (by omega)).2.1

/-- The returned level is 0, or its own threshold is at most the input. -/
theorem getLevelFromXP_zero_or_le (x : Int) :
    getLevelFromXP x = 0 ∨ totalXPForLevel (getLevelFromXP x : Int) ≤ x :=
  (getLevelFromXPAux_spec (x.toNat + 1) x 0 (by omega)).2.2

/-- For a non-negative input, the returned level's threshold is at most the
input. -/
theorem getLevelFromXP_threshold_le (x : Int) (hx : 0 ≤ x) :
    totalXPForLevel (getLevelFromXP x : Int) ≤ x := by
  rcases getLevelFromXP_zero_or_le x with h | h
  · rw [h]
    have h0 : totalXPForLevel ((0 : Nat) : Int) = 0 := by decide
    omega
  · exact h

/-- Uniqueness: `getLevelFromXP` returns the bracketing level. -/
theorem getLevelFromXP_eq_of_bracket (L : Nat) (X : Int)
    (h1 : totalXPForLevel (L : Int) ≤ X)
    (h2 : X < totalXPForLevel ((L : Int) + 1)) : getLevelFromXP X = L := by
  have hA2 := getLevelFromXP_lt X
  by_contra hne
  rcases Nat.lt_or_ge (getLevelFromXP X) L with hlt | hge
  · have hmono : totalXPForLevel ((getLevelFromXP X : Int) + 1) ≤
        totalXPForLevel (L : Int) :=
      totalXPForLevel_mono _ _ (by positivity) (by omega)
    omega
  · have hgt : L < getLevelFromXP X := by omega
    have hA1 : totalXPForLevel (getLevelFromXP X : Int) ≤ X := by
      rcases getLevelFromXP_zero_or_le X with h | h
      · omega
      · exact h
    have hmono : totalXPForLevel ((L : Int) + 1) ≤
        totalXPForLevel (getLevelFromXP X : Int) :=
      totalXPForLevel_mono _ _ (by positivity) (by omega)
    omega

/-- Any input below the first threshold (in particular any negative input)
yields level 0. -/
theorem getLevelFromXP_of_lt7 (X : Int) (h : X < 7) : getLevelFromXP X = 0 := by
  unfold getLevelFromXP
  rw [getLevelFromXPAux_eq, if_neg]
  intro hc
  have h7 : totalXPForLevel (((0 : Nat) : Int) + 1) = 7 := by decide
  omega

/-- The fueled loop agrees with the loop whenever the fuel strictly exceeds
the number of iterations left. -/
theorem getLevelLoop_eq_of_lt (fuel : Nat) : ∀ (x : Int) (level : Nat),
    getLevelFromXPAux x level < fuel + level →
    getLevelLoop fuel x level = some (getLevelFromXPAux x level) := by
  induction fuel with
  | zero =>
      intro x level h
      have hle := (getLevelFromXPAux_spec (x.toNat + 1) x level (by omega)).1
      omega
  | succ n ih =>
      intro x level h
      unfold getLevelLoop
      by_cases hguard : totalXPForLevel ((level : Int) + 1) ≤ x
      · rw [if_pos hguard]
        have haux : getLevelFromXPAux x level = getLevelFromXPAux x (level + 1) := by
          rw [getLevelFromXPAux_eq, if_pos hguard]
        rw [haux] at h ⊢
        exact ih x (level + 1) (by omega)
      · rw [if_neg hguard, getLevelFromXPAux_eq, if_neg hguard]

/-! The claims. -/

/-- C1: for every level `L ≥ 0` and every experience value `X` with
`totalXPForLevel L ≤ X < totalXPForLevel (L+1)`, `getLevelFromXP X`
returns `L`; in particular `getLevelFromXP 0 = 0`. -/
theorem getLevelFromXP_correct :
    (∀ (L : Nat) (X : Int), totalXPForLevel (L : Int) ≤ X →
      X < totalXPForLevel ((L : Int) + 1) → getLevelFromXP X = L) ∧
    getLevelFromXP 0 = 0 := by
  refine ⟨fun L X h1 h2 => getLevelFromXP_eq_of_bracket L X h1 h2, ?_⟩
  exact getLevelFromXP_eq_of_bracket 0 0 (by decide) (by decide)

/-- Witness for C1 at `L = 30`, `X = 1500` (a literal scenario of the
spec: `levelFromExperience 1500 = 30`). -/
theorem getLevelFromXP_correct_witness :
    totalXPForLevel ((30 : Nat) : Int) ≤ 1500 ∧
    (1500 : Int) < totalXPForLevel (((30 : Nat) : Int) + 1) ∧
    getLevelFromXP 1500 = 30 :=
  ⟨by decide, by decide,
    getLevelFromXP_correct.1 30 1500 (by decide) (by decide)⟩

/-- C2: at every level `L ≥ 0` the cumulative threshold increases by
exactly the level-up cost, including across the `L = 16` and `L = 31`
formula boundaries, and the numerators divided by 2 in the closed forms
are exactly even. -/
theorem totalXPForLevel_consistent (L : Int) (hL : 0 ≤ L) :
    totalXPForLevel (L + 1) - totalXPForLevel L = xpForNextLevel L ∧
    (5 * L * L - 81 * L + 720) % 2 = 0 ∧
    (9 * L * L - 325 * L + 4440) % 2 = 0 :=
  ⟨totalXPForLevel_succ_sub L hL, quad2_numerator_even L, quad3_numerator_even L⟩

/-- Witness for C2 at the boundary level `L = 16`. -/
theorem totalXPForLevel_consistent_witness :
    (0 : Int) ≤ 16 ∧
    (totalXPForLevel (16 + 1) - totalXPForLevel 16 = xpForNextLevel 16 ∧
      (5 * 16 * 16 - 81 * 16 + 720 : Int) % 2 = 0 ∧
      (9 * 16 * 16 - 325 * 16 + 4440 : Int) % 2 = 0) :=
  ⟨by decide, totalXPForLevel_consistent 16 (by decide)⟩

/-- C3: the cumulative threshold is strictly increasing on non-negative
levels. -/
theorem totalXPForLevel_strictMono (L : Int) (hL : 0 ≤ L) :
    totalXPForLevel L < totalXPForLevel (L + 1) :=
  totalXPForLevel_lt_succ L hL

/-- Witness for C3 at the boundary level `L = 31`. -/
theorem totalXPForLevel_strictMono_witness :
    (0 : Int) ≤ 31 ∧ totalXPForLevel 31 < totalXPForLevel (31 + 1) :=
  ⟨by decide, totalXPForLevel_strictMono 31 (by decide)⟩

/-- C6: `xpBetweenLevels` fails exactly when `startLevel > endLevel`, and
otherwise returns the threshold difference. -/
theorem xpBetweenLevels_correct (s e : Int) :
    (s > e → xpBetweenLevels s e =
      Except.error "startLevel cannot be greater than endLevel") ∧
    (s ≤ e → xpBetweenLevels s e =
      Except.ok (totalXPForLevel e - totalXPForLevel s)) := by
  constructor
  · intro h
    unfold xpBetweenLevels
    rw [if_pos h]
  · intro h
    unfold xpBetweenLevels
    rw [if_neg (by omega)]

/-- Witness for C6: the spec's literal scenarios
`experienceBetweenLevels 15 10` fails and
`experienceBetweenLevels 10 15 = 155`. -/
theorem xpBetweenLevels_correct_witness :
    xpBetweenLevels 15 10 =
      Except.error "startLevel cannot be greater than endLevel" ∧
    xpBetweenLevels 10 15 = Except.ok (totalXPForLevel 15 - totalXPForLevel 10) :=
  ⟨(xpBetweenLevels_correct 15 10).1 (by decide),
    (xpBetweenLevels_correct 10 15).2 (by decide)⟩

/-- C10: the search loop of `getLevelFromXP` terminates on every integer
input: the fueled rendition of the very same while loop already returns
`some` with `toNat X + 1` fuel, agreeing with `getLevelFromXP`; and every
negative input returns level 0 (the first threshold, 7, already exceeds
it). -/
theorem getLevelFromXP_terminates (X : Int) :
    getLevelLoop (X.toNat + 1) X 0 = some (getLevelFromXP X) ∧
    (X < 0 → getLevelFromXP X = 0) := by
  constructor
  · apply getLevelLoop_eq_of_lt
    rcases getLevelFromXP_zero_or_le X with h | h
    · unfold getLevelFromXP at h
      omega
    · have h2 : ((getLevelFromXP X : Nat) : Int) ≤ totalXPForLevel (getLevelFromXP X : Int) :=
        le_totalXPForLevel _ (by positivity)
      unfold getLevelFromXP at h h2
      omega
  · intro hX
    exact getLevelFromXP_of_lt7 X (by omega)

/-- Witness for C10 at the negative input `X = -5`. -/
theorem getLevelFromXP_terminates_witness :
    getLevelLoop ((-5 : Int).toNat + 1) (-5) 0 = some (getLevelFromXP (-5)) ∧
    getLevelFromXP (-5) = 0 :=
  ⟨(getLevelFromXP_terminates (-5)).1,
    (getLevelFromXP_terminates (-5)).2 (by decide)⟩

/-- C4 counterexample: called with `total = 0` (and `current = 0`, as
`getXPStatus` would never do but a caller can), `renderProgressBar`
does not surface an error: it silently returns `"[]"`, the value JavaScript
produces through `NaN` (`0/0` → `NaN` ratio → `repeat(NaN)` = `""`). -/
theorem renderProgressBar_total_zero_counterexample :
    renderProgressBar 0 0 20 = Except.ok "[]" := by rfl

/-- C4 amended: with `total = 0` the function silently returns a string for
every `current ≥ 0` — `"[]"` when `current = 0` (the `NaN` path) and a fully
filled bar when `current > 0` (the `+Infinity` path); `current < 0`
surfaces an error (`RangeError` from the `-Infinity` repeat count) exactly
when the width is positive, while at width 0 it too returns `"[]"`
silently (`-Infinity * 0 = NaN`). -/
theorem renderProgressBar_total_zero_amended (current : ℚ) (w : Nat) :
    (current = 0 → renderProgressBar current 0 w = Except.ok "[]") ∧
    (0 < current → renderProgressBar current 0 w =
      Except.ok (String.mk ('[' :: (List.replicate w '#' ++ [']'])))) ∧
    (current < 0 → renderProgressBar current 0 w =
      if w = 0 then Except.ok "[]"
      else Except.error "RangeError: Invalid count value") := by
  refine ⟨?_, ?_, ?_⟩
  · intro h
    subst h
    unfold renderProgressBar
    rw [if_pos rfl, if_neg (lt_irrefl 0), if_pos rfl]
  · intro h
    unfold renderProgressBar
    rw [if_pos rfl, if_pos h]
  · intro h
    unfold renderProgressBar
    rw [if_pos rfl, if_neg (not_lt.mpr (le_of_lt h)), if_neg (ne_of_lt h)]

/-- Witness for C4's amended statement, at `current = 0, 1, -1` with
width 3 and at `current = -1` with width 0. -/
theorem renderProgressBar_total_zero_amended_witness :
    renderProgressBar 0 0 3 = Except.ok "[]" ∧
    renderProgressBar 1 0 3 =
      Except.ok (String.mk ('[' :: (List.replicate 3 '#' ++ [']']))) ∧
    renderProgressBar (-1) 0 3 =
      Except.error "RangeError: Invalid count value" ∧
    renderProgressBar (-1) 0 0 = Except.ok "[]" := by
  refine ⟨(renderProgressBar_total_zero_amended 0 3).1 rfl,
    (renderProgressBar_total_zero_amended 1 3).2.1 (by norm_num), ?_, ?_⟩
  · rw [(renderProgressBar_total_zero_amended (-1) 3).2.2 (by norm_num)]
    rfl
  · rw [(renderProgressBar_total_zero_amended (-1) 0).2.2 (by norm_num)]
    rfl

/-- C9 counterexample: `Math.round` rounds ties toward positive infinity,
not away from zero, so at `level = 0`, `percent = -1/2` the code returns
`Math.round(-3.5) = -3` while the claimed ties-away-from-zero rounding of
`-7/2` is `-4`. -/
theorem xpAtPercent_rounding_counterexample :
    xpAtPercent 0 (-(1 / 2)) = -3 ∧
    roundHalfAwayFromZero ((-(1 / 2)) * (xpForNextLevel 0 : ℚ)) = -4 := by
  constructor
  · norm_num [xpAtPercent, mathRound, xpForNextLevel]
  · norm_num [roundHalfAwayFromZero, xpForNextLevel]
    rw [show ((-4 : ℚ)) = ((-4 : Int) : ℚ) by norm_num, Int.ceil_intCast]

/-- C9 amended: `xpAtPercent L P` is `P * xpForNextLevel L` rounded to the
nearest integer with ties toward positive infinity, which coincides with
the claimed ties-away-from-zero rounding whenever the product is
non-negative (in particular for every `L ≥ 0` and `P ≥ 0`); and
`xpAtPercent 10 (1/2) = 14`. -/
theorem xpAtPercent_rounding_amended :
    (∀ (L : Int) (P : ℚ), 0 ≤ L → 0 ≤ P →
      xpAtPercent L P = roundHalfAwayFromZero (P * (xpForNextLevel L : ℚ))) ∧
    xpAtPercent 10 (1 / 2) = 14 := by
  constructor
  · intro L P hL hP
    unfold xpAtPercent roundHalfAwayFromZero mathRound
    rw [if_pos (mul_nonneg hP (by exact_mod_cast (xpForNextLevel_pos L hL).le))]
  · norm_num [xpAtPercent, mathRound, xpForNextLevel]

/-- Witness for C9's amended statement at `L = 10`, `P = 1/2` (the spec's
literal scenario `experienceAtPercent 10 0.5 = 14`). -/
theorem xpAtPercent_rounding_witness :
    (0 : Int) ≤ 10 ∧ (0 : ℚ) ≤ 1 / 2 ∧
    xpAtPercent 10 (1 / 2) =
      roundHalfAwayFromZero ((1 / 2) * (xpForNextLevel 10 : ℚ)) ∧
    xpAtPercent 10 (1 / 2) = 14 :=
  ⟨by decide, by norm_num,
    xpAtPercent_rounding_amended.1 10 (1 / 2) (by decide) (by norm_num),
    xpAtPercent_rounding_amended.2⟩

/-- With `current ≥ 0` and `total > 0` the bar renderer succeeds and
returns a bracketed bar of `fl ≤ w` filled markers and `w - fl` empty
markers. -/
theorem renderProgressBar_ok (current total : ℚ) (w : Nat)
    (hc : 0 ≤ current) (ht : 0 < total) :
    ∃ fl : Nat, fl ≤ w ∧ renderProgressBar current total w =
      Except.ok (String.mk ('[' :: (List.replicate fl '#' ++
        List.replicate (w - fl) '-' ++ [']']))) := by
  have hr0 : 0 ≤ min (current / total) 1 :=
    le_min (div_nonneg hc ht.le) zero_le_one
  have hr1 : min (current / total) 1 ≤ 1 := min_le_right _ _
  have hf0 : 0 ≤ mathRound (min (current / total) 1 * w) := by
    unfold mathRound
    have hm := mul_nonneg hr0 (by positivity : (0 : ℚ) ≤ (w : ℚ))
    exact Int.le_floor.mpr (by push_cast; linarith)
  have hfw : mathRound (min (current / total) 1 * w) ≤ (w : Int) := by
    unfold mathRound
    have h1 : min (current / total) 1 * w ≤ (w : ℚ) := by
      calc min (current / total) 1 * w ≤ 1 * w :=
            mul_le_mul_of_nonneg_right hr1 (by positivity)
        _ = w := one_mul _
    have h2 : min (current / total) 1 * w + 1 / 2 < (((w : Int) + 1 : Int) : ℚ) := by
      push_cast; linarith
    exact Int.lt_add_one_iff.mp (Int.floor_lt.mpr h2)
  refine ⟨(mathRound (min (current / total) 1 * w)).toNat, by omega, ?_⟩
  simp only [renderProgressBar, jsRepeat]
  rw [if_neg (ne_of_gt ht), if_neg (by omega), if_neg (by omega)]
  have he : ((w : Int) - mathRound (min (current / total) 1 * w)).toNat =
      w - (mathRound (min (current / total) 1 * w)).toNat := by omega
  rw [he]

/-- C7: for `current ≥ 0`, `total > 0` and positive width the rendered bar
is an `ok` string of length exactly `width + 2` (brackets included) whose
filled-marker count is at most `width`. -/
theorem renderProgressBar_bounds (current total : ℚ) (w : Nat)
    (hc : 0 ≤ current) (ht : 0 < total) (_hw : 0 < w) :
    ∃ s, renderProgressBar current total w = Except.ok s ∧
      s.length = w + 2 ∧ countFilled s ≤ w := by
  obtain ⟨fl, hfl, heq⟩ := renderProgressBar_ok current total w hc ht
  refine ⟨_, heq, ?_, ?_⟩
  · show (String.mk _).length = w + 2
    simp [String.length, List.length_append, List.length_replicate]
    omega
  · show countFilled (String.mk _) ≤ w
    simp [countFilled, List.count_cons, List.count_append, List.count_replicate]
    omega

/-- Witness for C7 at the spec's literal scenario
`renderBar 5 20 20 = "[#####---------------]"`. -/
theorem renderProgressBar_bounds_witness :
    (0 : ℚ) ≤ 5 ∧ (0 : ℚ) < 20 ∧ 0 < 20 ∧
    ∃ s, renderProgressBar 5 20 20 = Except.ok s ∧
      s.length = 20 + 2 ∧ countFilled s ≤ 20 :=
  ⟨by norm_num, by norm_num, by norm_num,
    renderProgressBar_bounds 5 20 20 (by norm_num) (by norm_num) (by norm_num)⟩


/-- With `X ≥ 0`, `getXPStatus` succeeds and its snapshot is internally
consistent (shared helper used by several results below). -/
theorem getXPStatus_ok_spec (X : Int) (w : Nat) (hX : 0 ≤ X) :
    ∃ st, getXPStatus X w = Except.ok st ∧
      st.level = getLevelFromXP X ∧
      0 ≤ st.progressRatio ∧ st.progressRatio ≤ 1 ∧
      st.xpInLevel = X - totalXPForLevel (st.level : Int) ∧
      st.xpNeeded = st.xpForLevelUp - st.xpInLevel ∧
      st.progressRatio = (st.xpInLevel : ℚ) / (st.xpForLevelUp : ℚ) := by
  have hup := getLevelFromXP_lt X
  have hlow := getLevelFromXP_threshold_le X hX
  have hdiff := totalXPForLevel_succ_sub ((getLevelFromXP X : Nat) : Int)
    (by positivity)
  have hcost := xpForNextLevel_pos ((getLevelFromXP X : Nat) : Int) (by positivity)
  have hin0 : 0 ≤ X - totalXPForLevel ((getLevelFromXP X : Nat) : Int) := by omega
  have hinlt : X - totalXPForLevel ((getLevelFromXP X : Nat) : Int) <
      xpForNextLevel ((getLevelFromXP X : Nat) : Int) := by omega
  obtain ⟨fl, hfl, hbar⟩ := renderProgressBar_ok
    ((X - totalXPForLevel ((getLevelFromXP X : Nat) : Int) : Int) : ℚ)
    ((xpForNextLevel ((getLevelFromXP X : Nat) : Int) : Int) : ℚ) w
    (by exact_mod_cast hin0) (by exact_mod_cast hcost)
  have hpr0 : 0 ≤ ((X - totalXPForLevel ((getLevelFromXP X : Nat) : Int) : Int) : ℚ) /
      ((xpForNextLevel ((getLevelFromXP X : Nat) : Int) : Int) : ℚ) :=
    div_nonneg (by exact_mod_cast hin0) (by exact_mod_cast hcost.le)
  have hpr1 : ((X - totalXPForLevel ((getLevelFromXP X : Nat) : Int) : Int) : ℚ) /
      ((xpForNextLevel ((getLevelFromXP X : Nat) : Int) : Int) : ℚ) ≤ 1 := by
    rw [div_le_one (by exact_mod_cast hcost)]
    exact_mod_cast hinlt.le
  have hunfold : getXPStatus X w = Except.map
      (fun progressBar => ⟨X, getLevelFromXP X,
        totalXPForLevel ((getLevelFromXP X : Nat) : Int),
        X - totalXPForLevel ((getLevelFromXP X : Nat) : Int),
        xpForNextLevel ((getLevelFromXP X : Nat) : Int),
        xpForNextLevel ((getLevelFromXP X : Nat) : Int) -
          (X - totalXPForLevel ((getLevelFromXP X : Nat) : Int)),
        ((X - totalXPForLevel ((getLevelFromXP X : Nat) : Int) : Int) : ℚ) /
          ((xpForNextLevel ((getLevelFromXP X : Nat) : Int) : Int) : ℚ),
        progressBar⟩)
      (renderProgressBar
        ((X - totalXPForLevel ((getLevelFromXP X : Nat) : Int) : Int) : ℚ)
        ((xpForNextLevel ((getLevelFromXP X : Nat) : Int) : Int) : ℚ) w) := rfl
  rw [hunfold, hbar]
  exact ⟨_, rfl, rfl, hpr0, hpr1, rfl, rfl, rfl⟩

/-- C8: for every `X ≥ 0` (and any bar width) `getXPStatus` returns a
snapshot whose progress ratio lies in `[0, 1]` and whose fields are
mutually consistent: `xpInLevel = X - totalXPForLevel level`,
`xpNeeded = xpForLevelUp - xpInLevel`, and
`progressRatio = xpInLevel / xpForLevelUp`. -/
theorem getXPStatus_consistent (X : Int) (w : Nat) (hX : 0 ≤ X) :
    ∃ st, getXPStatus X w = Except.ok st ∧
      st.level = getLevelFromXP X ∧
      0 ≤ st.progressRatio ∧ st.progressRatio ≤ 1 ∧
      st.xpInLevel = X - totalXPForLevel (st.level : Int) ∧
      st.xpNeeded = st.xpForLevelUp - st.xpInLevel ∧
      st.progressRatio = (st.xpInLevel : ℚ) / (st.xpForLevelUp : ℚ) :=
  getXPStatus_ok_spec X w hX

/-- Witness for C8 at the spec's literal scenario `X = 1500` (level 30,
ratio `105/112`), width 20. -/
theorem getXPStatus_consistent_witness :
    (0 : Int) ≤ 1500 ∧
    ∃ st, getXPStatus 1500 20 = Except.ok st ∧
      st.level = getLevelFromXP 1500 ∧
      0 ≤ st.progressRatio ∧ st.progressRatio ≤ 1 ∧
      st.xpInLevel = 1500 - totalXPForLevel (st.level : Int) ∧
      st.xpNeeded = st.xpForLevelUp - st.xpInLevel ∧
      st.progressRatio = (st.xpInLevel : ℚ) / (st.xpForLevelUp : ℚ) :=
  ⟨by decide, getXPStatus_consistent 1500 20 (by decide)⟩

/-! The gain simulation: equations and specification. -/

theorem bind_ok_eq {α β : Type} (a : α) (f : α → Except String β) :
    Except.bind (Except.ok a) f = f a := rfl

theorem bind_error_eq {α β : Type} (e : String) (f : α → Except String β) :
    Except.bind (Except.error e) f = Except.error e := rfl

theorem simulateXPGainAux_cons (xp g : Int) (rest : List Int) :
    simulateXPGainAux xp (g :: rest) =
      Except.bind (getXPStatus (xp + g) 20) (fun st =>
        Except.bind (simulateXPGainAux (xp + g) rest) (fun r =>
          Except.ok (r.1, st :: r.2))) := rfl

/-- The loop of `simulateXPGain` on non-negative running totals: it
succeeds, the final total is the sum, there is one step per gain, and the
`k`-th step is the snapshot of the running total after `k + 1` gains. -/
theorem simulateXPGainAux_spec (gains : List Int) : ∀ (xp : Int),
    (∀ k, k < gains.length → 0 ≤ xp + (gains.take (k + 1)).sum) →
    ∃ r, simulateXPGainAux xp gains = Except.ok r ∧
      r.1 = xp + gains.sum ∧
      r.2.length = gains.length ∧
      ∀ k, k < gains.length → ∃ st, r.2[k]? = some st ∧
        getXPStatus (xp + (gains.take (k + 1)).sum) 20 = Except.ok st := by
  induction gains with
  | nil =>
      intro xp _
      refine ⟨(xp, []), rfl, by simp, rfl, ?_⟩
      intro k hk
      simp at hk
  | cons g rest ih =>
      intro xp hpos
      have h0 : 0 ≤ xp + g := by
        have h1 := hpos 0 (by simp)
        simpa using h1
      obtain ⟨st, hst, -⟩ := getXPStatus_ok_spec (xp + g) 20 h0
      have hpos2 : ∀ k, k < rest.length → 0 ≤ (xp + g) + (rest.take (k + 1)).sum := by
        intro k hk
        have h2 := hpos (k + 1) (by simpa using hk)
        rw [List.take_succ_cons, List.sum_cons] at h2
        omega
      obtain ⟨r, hr, hr1, hr2, hr3⟩ := ih (xp + g) hpos2
      refine ⟨(r.1, st :: r.2), ?_, ?_, ?_, ?_⟩
      · rw [simulateXPGainAux_cons, hst, bind_ok_eq, hr, bind_ok_eq]
      · show r.1 = xp + (g :: rest).sum
        rw [hr1, List.sum_cons]
        ring
      · show (st :: r.2).length = (g :: rest).length
        simp [hr2]
      · intro k hk
        cases k with
        | zero =>
            refine ⟨st, by simp, ?_⟩
            have h4 : ((g :: rest).take 1).sum = g := by simp
            rw [h4]
            exact hst
        | succ k =>
            have hk2 : k < rest.length := by simpa using hk
            obtain ⟨st2, hs1, hs2⟩ := hr3 k hk2
            refine ⟨st2, by simpa using hs1, ?_⟩
            have harg : xp + ((g :: rest).take (k + 1 + 1)).sum =
                (xp + g) + (rest.take (k + 1)).sum := by
              rw [List.take_succ_cons, List.sum_cons]
              ring
            rw [harg]
            exact hs2

/-- C5 counterexample: the claim fails without a non-negativity restriction.
At `X0 = -10`, `gains = [1]` the first running total is `-9`:
`getXPStatus (-9)` computes level 0, `xpInLevel = -9`, ratio `-9/7`, and
`Math.round(-9/7 * 20) = -26`, so `"#".repeat(-26)` throws a `RangeError`
that propagates out of `simulateXPGain`, which therefore returns neither a
final total nor a steps list. -/
theorem simulateXPGain_counterexample :
    simulateXPGain (-10) [1] = Except.error "RangeError: Invalid count value" := by
  have h0 : getLevelFromXP (-9) = 0 := getLevelFromXP_of_lt7 (-9) (by norm_num)
  have hbar : renderProgressBar
      ((((-9 : Int)) - totalXPForLevel ((getLevelFromXP (-9) : Nat) : Int) : Int) : ℚ)
      ((xpForNextLevel ((getLevelFromXP (-9) : Nat) : Int) : Int) : ℚ) 20 =
      Except.error "RangeError: Invalid count value" := by
    rw [h0]
    norm_num [renderProgressBar, jsRepeat, mathRound, totalXPForLevel,
      xpForNextLevel, min_def]
  have hunfold : getXPStatus (-9) 20 = Except.map
      (fun progressBar => (⟨-9, getLevelFromXP (-9),
        totalXPForLevel ((getLevelFromXP (-9) : Nat) : Int),
        (-9 : Int) - totalXPForLevel ((getLevelFromXP (-9) : Nat) : Int),
        xpForNextLevel ((getLevelFromXP (-9) : Nat) : Int),
        xpForNextLevel ((getLevelFromXP (-9) : Nat) : Int) -
          ((-9 : Int) - totalXPForLevel ((getLevelFromXP (-9) : Nat) : Int)),
        ((((-9 : Int)) - totalXPForLevel ((getLevelFromXP (-9) : Nat) : Int) : Int) : ℚ) /
          ((xpForNextLevel ((getLevelFromXP (-9) : Nat) : Int) : Int) : ℚ),
        progressBar⟩ : XPStatus))
      (renderProgressBar
        ((((-9 : Int)) - totalXPForLevel ((getLevelFromXP (-9) : Nat) : Int) : Int) : ℚ)
        ((xpForNextLevel ((getLevelFromXP (-9) : Nat) : Int) : Int) : ℚ) 20) := rfl
  have hstatus : getXPStatus (-9) 20 = Except.error "RangeError: Invalid count value" := by
    rw [hunfold, hbar]
    rfl
  have hsim : simulateXPGain (-10) [1] =
      Except.bind (getXPStatus (-9) 20) (fun st =>
        Except.bind (simulateXPGainAux (-9) []) (fun r =>
          Except.ok (r.1, st :: r.2))) := rfl
  rw [hsim, hstatus, bind_error_eq]

/-- C5 amended: when every running total `X0 + g1 + ... + gk` is
non-negative (so that no step's progress-bar rendering throws),
`simulateXPGain X0 gains` succeeds, its final total is `X0` plus all the
gains, its steps list has one entry per gain, and the `k`-th step is
exactly the snapshot `getXPStatus` returns for the running total after the
first `k + 1` gains.  (Without the restriction the claim fails:
see the counterexample at `X0 = -10`, `gains = [1]`.) -/
theorem simulateXPGain_correct (X0 : Int) (gains : List Int)
    (hpos : ∀ k, k < gains.length → 0 ≤ X0 + (gains.take (k + 1)).sum) :
    ∃ r, simulateXPGain X0 gains = Except.ok r ∧
      r.1 = X0 + gains.sum ∧
      r.2.length = gains.length ∧
      ∀ k, k < gains.length → ∃ st, r.2[k]? = some st ∧
        getXPStatus (X0 + (gains.take (k + 1)).sum) 20 = Except.ok st :=
  simulateXPGainAux_spec gains X0 hpos

/-- Witness for C5 at `X0 = 22`, `gains = [50, -10, 1000]` (all running
totals non-negative). -/
theorem simulateXPGain_correct_witness :
    (∀ k, k < ([50, -10, 1000] : List Int).length →
      0 ≤ (22 : Int) + (([50, -10, 1000] : List Int).take (k + 1)).sum) ∧
    ∃ r, simulateXPGain 22 [50, -10, 1000] = Except.ok r ∧
      r.1 = 22 + ([50, -10, 1000] : List Int).sum ∧
      r.2.length = ([50, -10, 1000] : List Int).length ∧
      ∀ k, k < ([50, -10, 1000] : List Int).length → ∃ st, r.2[k]? = some st ∧
        getXPStatus (22 + (([50, -10, 1000] : List Int).take (k + 1)).sum) 20 =
          Except.ok st := by
  have hpos : ∀ k, k < ([50, -10, 1000] : List Int).length →
      0 ≤ (22 : Int) + (([50, -10, 1000] : List Int).take (k + 1)).sum := by
    intro k hk
    have hk3 : k < 3 := by simpa using hk
    interval_cases k <;> decide
  exact ⟨hpos, simulateXPGain_correct 22 [50, -10, 1000] hpos⟩
